import Mathlib

set_option autoImplicit false

/-!
# Verification of the memote reporting core

A shallow embedding of the scoring / report-assembly code of the memote
repository, together with proofs about it.

Conventions of the embedding:
* Python `float` is modelled as `ℚ` (the scoring arithmetic of the code is
  exact field arithmetic: complements `1 - m`, sums, means and quotients).
  The single non-finite float that matters to the spec, IEEE NaN, is a
  distinguished constructor of the JSON value type.
* Python `dict` is modelled as an association list `List (String × α)` in
  insertion order (Python dicts preserve insertion order); keys are unique in
  any dict produced by Python, which appears as `Nodup` hypotheses where a
  theorem needs it.
* Python sets are modelled as lists used only up to membership; set iteration
  order (arbitrary in Python) is modelled as first-occurrence order.
* Fallible Python code (raising exceptions) is modelled with
  `Except PyError`.
-/

/-- The Python exceptions that the embedded code can raise. -/
inductive PyError where
  /-- `TypeError`, e.g. `1.0 - None` or subscripting a non-subscriptable
  object. -/
  | typeError : PyError
  /-- `AttributeError`, e.g. calling `append` on a `dict`. -/
  | attributeError : PyError
  /-- `ZeroDivisionError`: Python float division by `0.0` raises. -/
  | zeroDivisionError : PyError
  /-- pandas `KeyError` carrying the labels that are not in the index. -/
  | keyError (missing : List String) : PyError
  /-- pydantic `ValidationError`. -/
  | validationError : PyError
  /-- `ValueError` with a message, e.g. from `json.dumps`. -/
  | valueError (msg : String) : PyError
deriving DecidableEq, Repr

/-- Python float division: `a / b` raises `ZeroDivisionError` when `b == 0`
(unlike IEEE arithmetic). -/
def pydiv (a b : ℚ) : Except PyError ℚ :=
  if b = 0 then .error .zeroDivisionError else .ok (a / b)

/-! ## Ordered dictionaries as association lists -/

/-- `d[k]` as a total lookup: `d.get(k)` / `d[k]` returning the first binding
of `k` (Python dicts have unique keys). -/
def dictGet {α : Type} (k : String) : List (String × α) → Option α
  | [] => none
  | (k', v) :: rest => if k' = k then some v else dictGet k rest

/-- `d.get(k, dflt)`. -/
def dictGetD {α : Type} (k : String) (d : List (String × α)) (dflt : α) : α :=
  (dictGet k d).getD dflt

/-- `d[k] = v`: replace the binding of `k` if present (keeping its position,
as Python dicts do), else append a new binding. -/
def dictInsert {α : Type} (k : String) (v : α) : List (String × α) → List (String × α)
  | [] => [(k, v)]
  | (k', v') :: rest =>
    if k' = k then (k, v) :: rest else (k', v') :: dictInsert k v rest

/-- Membership of a string in a list of strings, as a boolean (`in`). -/
def strMem (t : String) : List String → Bool
  | [] => false
  | x :: xs => if x = t then true else strMem t xs

/-! ## Result model (`memote/suite/results/memote_result.py`) -/

/-- `FormatType`: how a test result is displayed. -/
inductive FormatType where
  | number | count | percent | raw
deriving DecidableEq, Repr

/-- `TestCaseOutcome`: the possible pytest outcomes. -/
inductive TestCaseOutcome where
  | passed | failed | skipped
deriving DecidableEq, Repr

/-- A Python value as it appears in JSON-bound payloads (`data` fields and
the argument of `jsonify`).  `pynan` is an IEEE NaN float, the one float
that standard JSON cannot represent. -/
inductive PyValue where
  | pynone : PyValue
  | pybool (b : Bool) : PyValue
  | pyint (n : Int) : PyValue
  | pyfloat (q : ℚ) : PyValue
  | pynan : PyValue
  | pystr (s : String) : PyValue
  | pylist (xs : List PyValue) : PyValue
  | pydict (xs : List (String × PyValue)) : PyValue

/-- `TestCaseResult`: a singular (scalar) test case result. -/
structure TestCaseResult where
  title : String
  summary : String
  format_type : FormatType
  result : Option TestCaseOutcome := none
  duration : Option ℚ := none
  message : Option String := none
  metric : Option ℚ := none
  score : Option ℚ := none
  data : Option PyValue := none

/-- `ParametrizedTestCaseResult`: per-parameter-key mappings for each scalar
field. -/
structure ParametrizedTestCaseResult where
  title : String
  summary : String
  format_type : FormatType
  result : List (String × TestCaseOutcome) := []
  duration : List (String × ℚ) := []
  message : List (String × String) := []
  metric : List (String × ℚ) := []
  score : List (String × ℚ) := []
  data : List (String × Option PyValue) := []

/-- The union type stored in `MemoteResult.tests`. -/
inductive TestResult where
  | parametrized (p : ParametrizedTestCaseResult) : TestResult
  | scalar (r : TestCaseResult) : TestResult

/-- `MetaInformation`: run metadata.  Timestamps, platform strings and
package versions are opaque to all reporting logic, so they are kept as
plain strings. -/
structure MetaInformation where
  timestamp : String := ""
  platform : String := ""
  release : String := ""
  python : String := ""

/-- `MemoteResult`: meta information plus the mapping from test identifier
to its result. -/
structure MemoteResult where
  meta : MetaInformation := {}
  tests : List (String × TestResult) := []

/-! ## Report configuration (`memote/suite/reporting/report_configuration.py`) -/

/-- `ReportCard`: title plus the list of test-case identifiers of the card. -/
structure ReportCard where
  title : String
  cases : List String

/-- `ScoredReportCard`: a card of the scored section; `weight` defaults to
`1.0`.  `score` is not a declared pydantic field: `compute_score` attaches it
dynamically (`card.score = ...`), modelled as an optional field that starts
out absent. -/
structure ScoredReportCard where
  title : String
  cases : List String
  weight : ℚ := 1
  score : Option ℚ := none

/-- `UnscoredSection`: title, cards, optional description. -/
structure UnscoredSection where
  title : String := ""
  cards : List (String × ReportCard) := []
  description : Option String := none

/-- `ScoredSection`: like `UnscoredSection` but with scored cards.  `score`
is attached dynamically by `compute_score`
(`self.config.sections.scored.score = ...`), modelled as an optional field
that starts out absent. -/
structure ScoredSection where
  title : String := ""
  cards : List (String × ScoredReportCard) := []
  description : Option String := none
  score : Option ℚ := none

/-- `Sections`: the scored and the unscored section. -/
structure Sections where
  scored : ScoredSection
  unscored : UnscoredSection

/-- `ReportConfiguration`: sections plus the per-test weight mapping. -/
structure ReportConfiguration where
  sections : Sections
  weights : List (String × ℚ) := []

/-! ## Scorer (`Report.compute_score`, `memote/suite/reporting/report.py`) -/

/-- One row of the pandas `DataFrame({"score": 0.0, "max": 1.0}, index=...)`:
the test identifier with its `score` and `max` column values. -/
abbrev ScoresTable := List (String × ℚ × ℚ)

/-- The initial table: one row per test identifier, `score = 0.0`,
`max = 1.0`.  The code builds the index from `sorted(self.result.tests)`;
every subsequent access is by label, never by position, so the row order is
kept as key order here. -/
def initTable (keys : List String) : ScoresTable :=
  keys.map (fun t => (t, 0, 1))

/-- Label-based update of the row(s) of one test identifier. -/
def tableMapRow : ScoresTable → String → (ℚ × ℚ → ℚ × ℚ) → ScoresTable
  | [], _, _ => []
  | (t', p) :: rest, t, f =>
    (if t' = t then (t', f p) else (t', p)) :: tableMapRow rest t f

/-- `scores.at[test, "score"] = score`. -/
def tableSetScore (tab : ScoresTable) (t : String) (sc : ℚ) : ScoresTable :=
  tableMapRow tab t (fun p => (sc, p.2))

/-- `scores.loc[test, :] *= w`: scale both columns of one row. -/
def tableScaleRow (tab : ScoresTable) (t : String) (w : ℚ) : ScoresTable :=
  tableMapRow tab t (fun p => (p.1 * w, p.2 * w))

/-- Row lookup by label. -/
def tableLookup (tab : ScoresTable) (t : String) : Option (ℚ × ℚ) :=
  match tab with
  | [] => none
  | (t', p) :: rest => if t' = t then some p else tableLookup rest t

/-- One iteration of the parametrized branch of the per-test loop:
`value = 1.0 - value; total += value; result.score[key] = value`. -/
def paramStep (acc : ℚ × List (String × ℚ)) (kv : String × ℚ) :
    ℚ × List (String × ℚ) :=
  (acc.1 + (1 - kv.2), dictInsert kv.1 (1 - kv.2) acc.2)

/-- Scoring of the parametrized branch, continued: fold `paramStep` over the
metric items starting from `(0.0, result.score)` and divide by the number of
items (or yield `0.0` for an empty metric mapping). -/
def scoreParam (p : ParametrizedTestCaseResult) : ParametrizedTestCaseResult × ℚ :=
  let folded := p.metric.foldl paramStep (0, p.score)
  let sc : ℚ := if p.metric.length = 0 then 0 else folded.1 / p.metric.length
  ({ p with score := folded.2 }, sc)

/-- The body of the per-test loop of `compute_score`: returns the mutated
test record together with the per-test score `score` that is written into
the table.  For a scalar test, `result.score = 1.0 - result.metric` raises a
`TypeError` when `metric` is `None`. -/
def scoreOneTest : TestResult → Except PyError (TestResult × ℚ)
  | .parametrized p =>
    let (p', sc) := scoreParam p
    .ok (.parametrized p', sc)
  | .scalar r =>
    match r.metric with
    | none => .error .typeError
    | some m => .ok (.scalar { r with score := some (1 - m) }, 1 - m)

/-- The first loop of `compute_score`: score every test, write the score
into its table row and scale the row by the test's configured weight
(`self.config.weights.get(test, 1.0)`). -/
def scoreTestsLoop (weights : List (String × ℚ)) :
    List (String × TestResult) → ScoresTable →
    Except PyError (List (String × TestResult) × ScoresTable)
  | [], tab => .ok ([], tab)
  | (t, res) :: rest, tab => do
    let (res', sc) ← scoreOneTest res
    let tab := tableScaleRow (tableSetScore tab t sc) t (dictGetD t weights 1)
    let (rest', tab') ← scoreTestsLoop weights rest tab
    .ok ((t, res') :: rest', tab')

/-- The two columns of the scores table. -/
inductive Col where
  | score | max
deriving DecidableEq, Repr

/-- Column projection. -/
def colOf : Col → ℚ × ℚ → ℚ
  | .score, p => p.1
  | .max, p => p.2

/-- `scores.loc[labels, col].sum()`: pandas label-based selection raises a
`KeyError` listing the labels that are not in the index; otherwise the
selected column values (respecting duplicate labels) are summed. -/
def locSum (tab : ScoresTable) (labels : List String) (c : Col) : Except PyError ℚ :=
  let missing := labels.filter (fun t => (tableLookup tab t).isNone)
  if missing.isEmpty then
    .ok (labels.map (fun t => colOf c ((tableLookup tab t).getD (0, 0)))).sum
  else
    .error (.keyError missing)

/-- The second loop of `compute_score`: iterate over the cards of the scored
section, skipping cards with an empty case list, attaching
`card.score = card_score / card_total` to every other card, and accumulating
`score += card_score * card.weight` and `maximum += card_total * card.weight`. -/
def aggregateCards (tab : ScoresTable) :
    List (String × ScoredReportCard) → ℚ → ℚ →
    Except PyError (List (String × ScoredReportCard) × ℚ × ℚ)
  | [], s, m => .ok ([], s, m)
  | (cid, card) :: rest, s, m =>
    if card.cases.isEmpty then
      (aggregateCards tab rest s m).map (fun x => ((cid, card) :: x.1, x.2))
    else do
      let cardScore ← locSum tab card.cases .score
      let cardTotal ← locSum tab card.cases .max
      let ratio ← pydiv cardScore cardTotal
      let (rest', s', m') ← aggregateCards tab rest
        (s + cardScore * card.weight) (m + cardTotal * card.weight)
      .ok ((cid, { card with score := some ratio }) :: rest', s', m')

/-- `Report.compute_score`: score each test, aggregate the scored section and
store `score / maximum` on it.  The Python method mutates `self.result` and
`self.config` in place; the embedding returns the mutated pair. -/
def computeScore (result : MemoteResult) (config : ReportConfiguration) :
    Except PyError (MemoteResult × ReportConfiguration) := do
  let (tests', tab) ← scoreTestsLoop config.weights result.tests
    (initTable (result.tests.map Prod.fst))
  let (cards', s, m) ← aggregateCards tab config.sections.scored.cards 0 0
  let total ← pydiv s m
  .ok ({ result with tests := tests' },
    { config with sections :=
      { config.sections with scored :=
        { config.sections.scored with cards := cards', score := some total } } })

/-! ## Test organization (`Report.get_configured_tests`,
`Report.determine_miscellaneous_tests`) -/

/-- `Report.get_configured_tests`: the union of the test identifiers
referenced by any card of either section.  The Python function returns a
set used only for membership tests; the union is modelled as list
concatenation with set-membership semantics. -/
def getConfiguredTests (config : ReportConfiguration) : List String :=
  (config.sections.scored.cards.foldr (fun c acc => c.2.cases ++ acc) []) ++
  (config.sections.unscored.cards.foldr (fun c acc => c.2.cases ++ acc) [])

/-- `set(self.result.tests) - self.get_configured_tests()`: the identifiers
present in the result but in no configured card.  Python iterates the set
difference in arbitrary order; the embedding uses result-key order. -/
def unconfiguredTests (result : MemoteResult) (config : ReportConfiguration) :
    List String :=
  (result.tests.map Prod.fst).filter (fun t => !(strMem t (getConfiguredTests config)))

/-- `Report.determine_miscellaneous_tests`: if unconfigured tests exist,
`setdefault` a "misc" card titled "Misc. Tests" in the unscored section and
extend its case list with them. -/
def determineMisc (result : MemoteResult) (config : ReportConfiguration) :
    ReportConfiguration :=
  let unconfigured := unconfiguredTests result config
  if unconfigured.isEmpty then config
  else
    let cards := config.sections.unscored.cards
    let newCards :=
      match dictGet "misc" cards with
      | some misc => dictInsert "misc" { misc with cases := misc.cases ++ unconfigured } cards
      | none => cards ++ [("misc", { title := "Misc. Tests", cases := unconfigured })]
    { config with sections :=
      { config.sections with unscored :=
        { config.sections.unscored with cards := newCards } } }

/-! ## Configuration merging (`ReportConfiguration.merge`) -/

/-- Python `dict.update`: mutates the receiver in place and returns `None`.
The value of the expression `self.dict().update(other.dict())` is therefore
always `None`, whatever the two dictionaries contain. -/
def pyDictUpdate {α : Type} (_self _other : α) : Option α := none

/-- pydantic `parse_obj`: validates a dict into a model.  A dict produced by
`.dict()` of a valid configuration re-validates to that configuration; any
non-dict argument (in particular `None`) raises a `ValidationError`. -/
def parseObj : Option ReportConfiguration → Except PyError ReportConfiguration
  | some c => .ok c
  | none => .error .validationError

/-- `ReportConfiguration.merge`:
`return type(self).parse_obj(self.dict().update(other.dict()))`. -/
def merge (self other : ReportConfiguration) : Except PyError ReportConfiguration :=
  parseObj (pyDictUpdate self other)

/-! ## JSON serialization (`memote/utils.py`, `jsonify`) -/

/-- The keyword arguments `jsonify` passes to the serializer. -/
structure JsonParams where
  sort_keys : Bool
  indent : Option Nat
  allow_nan : Bool
  item_separator : String
  kv_separator : String
  ensure_ascii : Bool

/-- The `pretty=True` parameter set of `jsonify`. -/
def prettyParams : JsonParams :=
  { sort_keys := true, indent := some 2, allow_nan := false,
    item_separator := ",", kv_separator := ": ", ensure_ascii := false }

/-- The `pretty=False` parameter set of `jsonify`. -/
def compactParams : JsonParams :=
  { sort_keys := false, indent := none, allow_nan := false,
    item_separator := ",", kv_separator := ":", ensure_ascii := false }

/-- Insertion of a key/value pair into a key-sorted list (for
`sort_keys=True`). -/
def insertByKey (e : String × String) : List (String × String) → List (String × String)
  | [] => [e]
  | x :: xs => if e.1 ≤ x.1 then e :: x :: xs else x :: insertByKey e xs

/-- Key-sorting of serialized dict items. -/
def sortByKey (l : List (String × String)) : List (String × String) :=
  l.foldr insertByKey []

/-- Comma/colon joining of serialized items.  Whitespace layout under
`indent` is immaterial to every property below and is not reproduced. -/
def joinItems (sep : String) : List String → String
  | [] => ""
  | [x] => x
  | x :: xs => x ++ sep ++ joinItems sep xs

mutual
/-- `json.dumps`: serialize a Python value.  With `allow_nan=False` a NaN
float raises `ValueError("Out of range float values are not JSON
compliant")`; values outside the JSON types raise a `TypeError` upstream of
this model (every `PyValue` is JSON-typed except `pynan`). -/
def dumps (ps : JsonParams) : PyValue → Except PyError String
  | .pynone => .ok "null"
  | .pybool b => .ok (if b then "true" else "false")
  | .pyint n => .ok (toString n)
  | .pyfloat q => .ok (toString q)
  | .pynan =>
    if ps.allow_nan then .ok "NaN"
    else .error (.valueError "Out of range float values are not JSON compliant")
  | .pystr s => .ok (String.quote s)
  | .pylist xs => do
    let parts ← dumpsList ps xs
    .ok ("[" ++ joinItems ps.item_separator parts ++ "]")
  | .pydict xs => do
    let parts ← dumpsDict ps xs
    let parts := if ps.sort_keys then sortByKey parts else parts
    .ok ("\x7b" ++
      joinItems ps.item_separator
        (parts.map (fun e => String.quote e.1 ++ ps.kv_separator ++ e.2)) ++
      "\x7d")

/-- Serialize the elements of a JSON array. -/
def dumpsList (ps : JsonParams) : List PyValue → Except PyError (List String)
  | [] => .ok []
  | x :: xs => do
    let s ← dumps ps x
    let rest ← dumpsList ps xs
    .ok (s :: rest)

/-- Serialize the entries of a JSON object. -/
def dumpsDict (ps : JsonParams) : List (String × PyValue) →
    Except PyError (List (String × String))
  | [] => .ok []
  | (k, v) :: xs => do
    let s ← dumps ps v
    let rest ← dumpsDict ps xs
    .ok ((k, s) :: rest)
end

/-- Log severities used by the embedded code. -/
inductive LogLevel where
  | critical
deriving DecidableEq, Repr

/-- The message `jsonify` logs before re-raising. -/
def jsonifyCriticalMsg : String :=
  "The memote result structure is incompatible with the JSON standard."

/-- `jsonify(result, pretty)`: choose the parameter set, serialize, and on a
`TypeError`/`ValueError` log at critical severity and re-raise.  The log
records emitted by the call are returned alongside the outcome. -/
def jsonify (result : PyValue) (pretty : Bool) :
    List (LogLevel × String) × Except PyError String :=
  let params := if pretty then prettyParams else compactParams
  match dumps params result with
  | .ok s => ([], .ok s)
  | .error e => ([(.critical, jsonifyCriticalMsg)], .error e)

/-! ## Diff assembly (`memote/suite/reporting/diff.py`,
`DiffReport.format_and_score_diff_data`) -/

/-- One per-model entry of a `diff` list:
`{"model": ..., "data": ..., "duration": ..., "message": ..., "metric": ...,
"result": ...}`. -/
structure DiffEntry where
  model : String
  data : Option PyValue
  duration : Option ℚ
  message : Option String
  metric : Option ℚ
  result : Option TestCaseOutcome

/-- The `diff` field of an assembled test: a flat list for a scalar test, a
mapping from parameter key to a list of per-model entries for a
parametrized test. -/
inductive DiffData where
  | scalarList (entries : List DiffEntry) : DiffData
  | paramMap (m : List (String × List DiffEntry)) : DiffData

/-- An entry of the assembled `tests` mapping: the shared header
(`summary`, `title`, `format_type`, taken from the first model that defines
the test) plus the `diff` data. -/
structure DiffTestEntry where
  summary : String
  title : String
  format_type : FormatType
  diff : DiffData

/-- The diff entry of one model for a scalar test
(`test_results.setdefault(...)` on the keys of a freshly dumped scalar
record returns the present, possibly-`None`, values). -/
def mkScalarDiffEntry (model : String) (r : TestCaseResult) : DiffEntry :=
  { model := model, data := r.data, duration := r.duration,
    message := r.message, metric := r.metric, result := r.result }

/-- The diff entry of one model for one parameter key of a parametrized
test: `test_results["data"].setdefault(param)` etc. look the key up in each
field mapping, defaulting to `None` where the key is absent. -/
def mkParamDiffEntry (model : String) (p : ParametrizedTestCaseResult)
    (key : String) : DiffEntry :=
  { model := model,
    data := (dictGet key p.data).getD none,
    duration := dictGet key p.duration,
    message := dictGet key p.message,
    metric := dictGet key p.metric,
    result := dictGet key p.result }

/-- `tests[test_id]["diff"].setdefault(param, list()).append(entry)` folded
over the parameter keys of `test_results["metric"]`. -/
def addParamEntries (model : String) (p : ParametrizedTestCaseResult)
    (m0 : List (String × List DiffEntry)) : List (String × List DiffEntry) :=
  p.metric.foldl
    (fun m kv =>
      match dictGet kv.1 m with
      | some l => dictInsert kv.1 (l ++ [mkParamDiffEntry model p kv.1]) m
      | none => m ++ [(kv.1, [mkParamDiffEntry model p kv.1])])
    m0

/-- The body of the inner loop of `format_and_score_diff_data`: merge one
test record of one model into the assembled `tests` mapping.  Mixing a
scalar and a parametrized shape under the same test identifier makes the
code call `append` on a `dict` (or `setdefault` on a `list`), an
`AttributeError`. -/
def processTest (model : String) (tid : String) (tr : TestResult)
    (tests : List (String × DiffTestEntry)) :
    Except PyError (List (String × DiffTestEntry)) :=
  match dictGet tid tests with
  | none =>
    match tr with
    | .scalar r =>
      .ok (tests ++ [(tid,
        { summary := r.summary, title := r.title, format_type := r.format_type,
          diff := .scalarList [mkScalarDiffEntry model r] })])
    | .parametrized p =>
      .ok (tests ++ [(tid,
        { summary := p.summary, title := p.title, format_type := p.format_type,
          diff := .paramMap (addParamEntries model p []) })])
  | some e =>
    match tr, e.diff with
    | .scalar r, .scalarList es =>
      .ok (dictInsert tid { e with diff := .scalarList (es ++ [mkScalarDiffEntry model r]) } tests)
    | .parametrized p, .paramMap m =>
      .ok (dictInsert tid { e with diff := .paramMap (addParamEntries model p m) } tests)
    | _, _ => .error .attributeError

/-- The inner loop of `format_and_score_diff_data` over all test records of
one model. -/
def processModelTests (model : String) : List (String × TestResult) →
    List (String × DiffTestEntry) → Except PyError (List (String × DiffTestEntry))
  | [], tests => .ok tests
  | (tid, tr) :: rest, tests => do
    let tests' ← processTest model tid tr tests
    processModelTests model rest tests'

/-- One record of `score["total_score"]["diff"]`. -/
structure TotalScoreEntry where
  model : String
  total_score : Option ℚ

/-- The assembled structure `base` built by `format_and_score_diff_data`.
`base["meta"]` stays the initial empty dict: the code rebinds the local
`meta` variable (`meta = result_obj["meta"]`) without ever writing through
to `base`, so nothing is recorded here. -/
structure DiffBase where
  tests : List (String × DiffTestEntry) := []
  total_score_diff : List TotalScoreEntry := []

/-- `self.result["score"]["sections"]`: `self.result` is a `MemoteResult`, a
pydantic model that is not subscriptable and that declares no `score` field
(its only fields are `meta` and `tests`), so this expression raises a
`TypeError` for every result. -/
def resultScoreSections (_result : MemoteResult) : Except PyError (List String) :=
  .error .typeError

/-- The per-model body of the loop of `format_and_score_diff_data`: merge
the model's tests, run `compute_score` on the shared configuration, append
the model's total score, then iterate `self.result["score"]["sections"]`. -/
def diffStep (base : DiffBase) (config : ReportConfiguration) (model : String)
    (result : MemoteResult) : Except PyError (DiffBase × ReportConfiguration) := do
  let tests' ← processModelTests model result.tests base.tests
  let (result', config') ← computeScore result config
  let totals := base.total_score_diff ++
    [{ model := model, total_score := config'.sections.scored.score }]
  let _sections ← resultScoreSections result'
  .ok ({ base with tests := tests', total_score_diff := totals }, config')

/-- The model loop of `format_and_score_diff_data`, threading the shared
configuration (mutated in place by `compute_score`) and the assembled
structure. -/
def diffLoop : List (String × MemoteResult) → ReportConfiguration → DiffBase →
    Except PyError DiffBase
  | [], _, base => .ok base
  | (model, result) :: rest, config, base => do
    let (base', config') ← diffStep base config model result
    diffLoop rest config' base'

/-- `DiffReport.format_and_score_diff_data`: start from the empty `base` and
run the per-model step over the mapping from model identifier to result. -/
def formatAndScoreDiffData (diffResults : List (String × MemoteResult))
    (config : ReportConfiguration) : Except PyError DiffBase :=
  diffLoop diffResults config {}

/-- The tests-assembly part of the model loop (the inner loop over
`result_obj["tests"]`) in isolation, run over every model: what
`format_and_score_diff_data` would assemble into `base["tests"]` if the
per-model scoring block did not fail. -/
def mergeAllModelTests : List (String × MemoteResult) →
    List (String × DiffTestEntry) → Except PyError (List (String × DiffTestEntry))
  | [], tests => .ok tests
  | (model, result) :: rest, tests => do
    let tests' ← processModelTests model result.tests tests
    mergeAllModelTests rest tests'

/-! ## Concrete example inputs -/

/-- A result with one scalar test `t1` of metric `0.0`. -/
def exResult : MemoteResult :=
  { tests := [("t1", .scalar
      { title := "T", summary := "S", format_type := .number, metric := some 0 })] }

/-- A configuration with one scored card `c1` holding `t1` and no weights. -/
def exConfig : ReportConfiguration :=
  { sections :=
      { scored := { cards := [("c1", { title := "C", cases := ["t1"] })] },
        unscored := {} },
    weights := [] }

/-- `exResult` after scoring: `t1` carries `score = 1.0`. -/
def exResultScored : MemoteResult :=
  { tests := [("t1", .scalar
      { title := "T", summary := "S", format_type := .number, metric := some 0,
        score := some 1 })] }

/-- `exConfig` after scoring: card `c1` and the scored section carry score
`1.0`. -/
def exConfigScored : ReportConfiguration :=
  { sections :=
      { scored :=
          { cards := [("c1", { title := "C", cases := ["t1"], score := some 1 })],
            score := some 1 },
        unscored := {} },
    weights := [] }

/-- A result with no tests at all. -/
def exResultEmpty : MemoteResult := { tests := [] }

/-- A configuration whose scored card references the identifier
`"missing"`. -/
def exConfigMissing : ReportConfiguration :=
  { sections :=
      { scored := { cards := [("c1", { title := "C", cases := ["missing"] })] },
        unscored := {} },
    weights := [] }

/-- A parametrized test result with metric `{"a": 0.0, "b": 1.0}`. -/
def exParam : ParametrizedTestCaseResult :=
  { title := "P", summary := "S", format_type := .percent,
    metric := [("a", 0), ("b", 1)] }

/-- `exConfig` with test weight 2 for `t1`. -/
def exConfigW2 : ReportConfiguration :=
  { sections :=
      { scored := { cards := [("c1", { title := "C", cases := ["t1"] })] },
        unscored := {} },
    weights := [("t1", 2)] }

/-- `exConfigW2` after scoring. -/
def exConfigW2Scored : ReportConfiguration :=
  { sections :=
      { scored :=
          { cards := [("c1", { title := "C", cases := ["t1"], score := some 1 })],
            score := some 1 },
        unscored := {} },
    weights := [("t1", 2)] }

/-- A configuration with an empty scored section and a pre-existing
"Misc. Tests" card holding the identifier `"x"`. -/
def exMiscConfig : ReportConfiguration :=
  { sections :=
      { scored := { cards := [] },
        unscored :=
          { cards := [("misc", { title := "Misc. Tests", cases := ["x"] })] } },
    weights := [] }

/-- A second model's result for the same scalar test `t1`, with metric
`1.0`. -/
def exResultB : MemoteResult :=
  { tests := [("t1", .scalar
      { title := "T", summary := "S", format_type := .number, metric := some 1 })] }

/-- The two-model diff record that the tests-assembly builds for `t1`: one
entry per model in iteration order, carrying that model's values. -/
def exDiffT1 : DiffTestEntry :=
  { summary := "S", title := "T", format_type := .number,
    diff := .scalarList
      [{ model := "m1", data := none, duration := none, message := none,
         metric := some 0, result := none },
       { model := "m2", data := none, duration := none, message := none,
         metric := some 1, result := none }] }

/-! ## Supporting lemmas -/

theorem strMem_iff (t : String) (l : List String) : strMem t l = true ↔ t ∈ l := by
  induction l with
  | nil => simp [strMem]
  | cons x xs ih =>
    by_cases h : x = t
    · subst h; simp [strMem]
    · simp [strMem, h, ih, List.mem_cons, Ne.symm h]

theorem dictGet_insert_self {α : Type} (k : String) (v : α) (d : List (String × α)) :
    dictGet k (dictInsert k v d) = some v := by
  induction d with
  | nil => simp [dictGet, dictInsert]
  | cons e rest ih =>
    obtain ⟨k', v'⟩ := e
    by_cases h : k' = k <;> simp [dictGet, dictInsert, h, ih]

theorem dictGet_insert_other {α : Type} {k k' : String} (h : k' ≠ k) (v : α)
    (d : List (String × α)) : dictGet k (dictInsert k' v d) = dictGet k d := by
  induction d with
  | nil => simp [dictGet, dictInsert, h]
  | cons e rest ih =>
    obtain ⟨k₀, v₀⟩ := e
    simp only [dictInsert]
    by_cases h₀ : k₀ = k'
    · subst h₀; simp [dictGet, h]
    · simp only [if_neg h₀, dictGet]
      by_cases h₁ : k₀ = k <;> simp [h₁, ih]

theorem dictGet_eq_some_of_mem {α : Type} {k : String} {v : α}
    {d : List (String × α)} (hnd : (d.map Prod.fst).Nodup) (hmem : (k, v) ∈ d) :
    dictGet k d = some v := by
  induction d with
  | nil => cases hmem
  | cons e rest ih =>
    obtain ⟨k₀, v₀⟩ := e
    simp only [List.map_cons, List.nodup_cons] at hnd
    rcases List.mem_cons.mp hmem with h | h
    · cases h; simp [dictGet]
    · have hk : k₀ ≠ k := by
        rintro rfl
        exact hnd.1 (List.mem_map.mpr ⟨(k₀, v), h, rfl⟩)
      simp [dictGet, hk, ih hnd.2 h]

theorem scoreOneTest_error {r : TestResult} {e : PyError}
    (h : scoreOneTest r = .error e) : e = .typeError := by
  cases r with
  | parametrized p => simp [scoreOneTest] at h
  | scalar r =>
    cases hm : r.metric with
    | none => simp [scoreOneTest, hm] at h; exact h.symm
    | some m => simp [scoreOneTest, hm] at h

theorem tableLookup_mapRow_self (tab : ScoresTable) (t : String)
    (f : ℚ × ℚ → ℚ × ℚ) :
    tableLookup (tableMapRow tab t f) t = (tableLookup tab t).map f := by
  induction tab with
  | nil => rfl
  | cons e rest ih =>
    obtain ⟨t', p⟩ := e
    by_cases h : t' = t
    · subst h
      rw [tableMapRow, if_pos rfl]
      simp [tableLookup]
    · rw [tableMapRow, if_neg h]
      simp [tableLookup, h, ih]

theorem tableLookup_mapRow_other {x t : String} (h : x ≠ t) (tab : ScoresTable)
    (f : ℚ × ℚ → ℚ × ℚ) :
    tableLookup (tableMapRow tab t f) x = tableLookup tab x := by
  induction tab with
  | nil => rfl
  | cons e rest ih =>
    obtain ⟨t', p⟩ := e
    by_cases h' : t' = t
    · subst h'
      rw [tableMapRow, if_pos rfl]
      simp [tableLookup, Ne.symm h, ih]
    · rw [tableMapRow, if_neg h']
      by_cases h'' : t' = x
      · subst h''
        simp [tableLookup]
      · simp [tableLookup, h'', ih]

theorem tableLookup_initTable_of_mem {t : String} {keys : List String}
    (h : t ∈ keys) : tableLookup (initTable keys) t = some (0, 1) := by
  induction keys with
  | nil => cases h
  | cons k rest ih =>
    by_cases hk : k = t
    · simp [initTable, tableLookup, hk]
    · rcases List.mem_cons.mp h with h' | h'
      · exact absurd h'.symm hk
      · simpa [initTable, tableLookup, hk] using ih h'

theorem tableLookup_initTable_of_not_mem {t : String} {keys : List String}
    (h : t ∉ keys) : tableLookup (initTable keys) t = none := by
  induction keys with
  | nil => simp [initTable, tableLookup]
  | cons k rest ih =>
    simp only [List.mem_cons, not_or] at h
    simpa [initTable, tableLookup, Ne.symm h.1] using ih h.2

theorem scoreTestsLoop_error_typeError (weights : List (String × ℚ))
    {tests : List (String × TestResult)} {t : String} {r : TestCaseResult}
    (hmem : (t, TestResult.scalar r) ∈ tests) (hm : r.metric = none)
    (tab : ScoresTable) :
    scoreTestsLoop weights tests tab = .error .typeError := by
  induction tests generalizing tab with
  | nil => cases hmem
  | cons e rest ih =>
    obtain ⟨t₀, res₀⟩ := e
    rcases List.mem_cons.mp hmem with hh | hh
    · injection hh with h1 h2
      subst h1
      rw [← h2]
      simp [scoreTestsLoop, scoreOneTest, hm, bind, Except.bind]
    · cases heq : scoreOneTest res₀ with
      | error e' =>
        have := scoreOneTest_error heq
        subst this
        simp [scoreTestsLoop, heq, bind, Except.bind]
      | ok v =>
        have hrec := ih hh (tableScaleRow (tableSetScore tab t₀ v.2) t₀ (dictGetD t₀ weights 1))
        simp [scoreTestsLoop, heq, bind, Except.bind, hrec]

theorem scoreTestsLoop_table_other (weights : List (String × ℚ))
    {tests : List (String × TestResult)} {tab : ScoresTable} {x : String}
    {out : List (String × TestResult) × ScoresTable}
    (hx : x ∉ tests.map Prod.fst)
    (h : scoreTestsLoop weights tests tab = .ok out) :
    tableLookup out.2 x = tableLookup tab x := by
  induction tests generalizing tab out with
  | nil =>
    simp only [scoreTestsLoop] at h
    cases h
    rfl
  | cons e rest ih =>
    obtain ⟨t₀, res₀⟩ := e
    simp only [List.map_cons, List.mem_cons, not_or] at hx
    cases heq : scoreOneTest res₀ with
    | error e' => simp [scoreTestsLoop, heq, bind, Except.bind] at h
    | ok v =>
      simp only [scoreTestsLoop, heq, bind, Except.bind] at h
      cases hrest : scoreTestsLoop weights rest
          (tableScaleRow (tableSetScore tab t₀ v.2) t₀ (dictGetD t₀ weights 1)) with
      | error e' => rw [hrest] at h; cases h
      | ok out' =>
        rw [hrest] at h
        cases h
        have := ih hx.2 hrest
        simp only [this, tableSetScore, tableScaleRow]
        rw [tableLookup_mapRow_other hx.1, tableLookup_mapRow_other hx.1]

theorem scoreTestsLoop_mem (weights : List (String × ℚ))
    {tests : List (String × TestResult)} {tab : ScoresTable} {t : String}
    {res : TestResult} {out : List (String × TestResult) × ScoresTable}
    (hnd : (tests.map Prod.fst).Nodup) (hmem : (t, res) ∈ tests)
    (h : scoreTestsLoop weights tests tab = .ok out) :
    ∃ res' sc, scoreOneTest res = .ok (res', sc) ∧ dictGet t out.1 = some res' ∧
      tableLookup out.2 t = (tableLookup tab t).map
        (fun p => (sc * dictGetD t weights 1, p.2 * dictGetD t weights 1)) := by
  induction tests generalizing tab out with
  | nil => cases hmem
  | cons e rest ih =>
    obtain ⟨t₀, res₀⟩ := e
    simp only [List.map_cons, List.nodup_cons] at hnd
    cases heq : scoreOneTest res₀ with
    | error e' => simp [scoreTestsLoop, heq, bind, Except.bind] at h
    | ok v =>
      obtain ⟨res₀', sc₀⟩ := v
      simp only [scoreTestsLoop, heq, bind, Except.bind] at h
      cases hrest : scoreTestsLoop weights rest
          (tableScaleRow (tableSetScore tab t₀ sc₀) t₀ (dictGetD t₀ weights 1)) with
      | error e' => rw [hrest] at h; cases h
      | ok out' =>
        rw [hrest] at h
        cases h
        rcases List.mem_cons.mp hmem with hh | hh
        · injection hh with h1 h2
          subst h1
          rw [← h2] at heq
          refine ⟨res₀', sc₀, heq, ?_, ?_⟩
          · simp [dictGet]
          · have hnot : t ∉ rest.map Prod.fst := hnd.1
            have hpres := scoreTestsLoop_table_other weights hnot hrest
            simp only [hpres, tableScaleRow, tableSetScore]
            rw [tableLookup_mapRow_self, tableLookup_mapRow_self]
            cases tableLookup tab t <;> simp
        · have ht₀ : t₀ ≠ t := by
            rintro rfl
            exact hnd.1 (List.mem_map.mpr ⟨(t₀, res), hh, rfl⟩)
          obtain ⟨res', sc, h1, h2, h3⟩ := ih hnd.2 hh hrest
          refine ⟨res', sc, h1, ?_, ?_⟩
          · simpa [dictGet, ht₀] using h2
          · rw [h3]
            simp only [tableScaleRow, tableSetScore]
            rw [tableLookup_mapRow_other (Ne.symm ht₀), tableLookup_mapRow_other (Ne.symm ht₀)]

theorem locSum_ok {tab : ScoresTable} {labels : List String} (c : Col)
    (h : ∀ t ∈ labels, (tableLookup tab t).isSome) :
    locSum tab labels c =
      .ok (labels.map (fun t => colOf c ((tableLookup tab t).getD (0, 0)))).sum := by
  have hfilter : labels.filter (fun t => (tableLookup tab t).isNone) = [] := by
    rw [List.filter_eq_nil_iff]
    intro t ht
    simpa [Option.isNone_iff_eq_none, ← Option.ne_none_iff_isSome] using h t ht
  simp [locSum, hfilter]

theorem locSum_error {tab : ScoresTable} {labels : List String} {t : String}
    (c : Col) (ht : t ∈ labels) (hnone : tableLookup tab t = none) :
    locSum tab labels c =
      .error (.keyError (labels.filter (fun x => (tableLookup tab x).isNone))) ∧
      t ∈ labels.filter (fun x => (tableLookup tab x).isNone) := by
  have htf : t ∈ labels.filter (fun x => (tableLookup tab x).isNone) := by
    rw [List.mem_filter]
    exact ⟨ht, by simp [hnone]⟩
  have hne : (labels.filter (fun x => (tableLookup tab x).isNone)).isEmpty = false := by
    cases hf : labels.filter (fun x => (tableLookup tab x).isNone) with
    | nil => rw [hf] at htf; cases htf
    | cons a l => simp
  refine ⟨?_, htf⟩
  simp [locSum, hne]

theorem aggregateCards_all_empty (tab : ScoresTable)
    {cards : List (String × ScoredReportCard)}
    (h : ∀ x ∈ cards, x.2.cases = []) (s m : ℚ) :
    aggregateCards tab cards s m = .ok (cards, s, m) := by
  induction cards with
  | nil => rfl
  | cons e rest ih =>
    have he : e.2.cases = [] := h e (List.mem_cons_self e rest)
    have hrest := ih (fun x hx => h x (List.mem_cons_of_mem e hx))
    obtain ⟨cid, card⟩ := e
    simp only at he
    simp [aggregateCards, he, hrest, Except.map]

theorem aggregateCards_skip_empty (tab : ScoresTable) (cid : String)
    {card : ScoredReportCard} (h : card.cases = [])
    (rest : List (String × ScoredReportCard)) (s m : ℚ) :
    aggregateCards tab ((cid, card) :: rest) s m =
      (aggregateCards tab rest s m).map (fun x => ((cid, card) :: x.1, x.2)) := by
  simp [aggregateCards, h]

theorem aggregateCards_error_after {tab : ScoresTable}
    {pre : List (String × ScoredReportCard)} {s m : ℚ}
    {acc : List (String × ScoredReportCard) × ℚ × ℚ}
    (hpre : aggregateCards tab pre s m = .ok acc)
    {rest : List (String × ScoredReportCard)} {e : PyError}
    (hrest : ∀ s' m', aggregateCards tab rest s' m' = .error e) :
    aggregateCards tab (pre ++ rest) s m = .error e := by
  induction pre generalizing s m acc with
  | nil => simpa using hrest s m
  | cons x pre' ih =>
    obtain ⟨cid, card⟩ := x
    by_cases hc : card.cases.isEmpty
    · simp only [aggregateCards, hc, if_pos, List.cons_append, List.append_eq] at hpre ⊢
      cases hp : aggregateCards tab pre' s m with
      | error e' => simp [hp, Except.map] at hpre
      | ok acc' => simp [ih hp, Except.map]
    · simp only [List.cons_append, List.append_eq, aggregateCards, hc, Bool.false_eq_true,
        if_false, bind, Except.bind] at hpre ⊢
      cases hs : locSum tab card.cases Col.score with
      | error e' => simp [hs] at hpre
      | ok cs =>
        simp only [hs] at hpre ⊢
        cases hm' : locSum tab card.cases Col.max with
        | error e' => simp [hm'] at hpre
        | ok cm =>
          simp only [hm'] at hpre ⊢
          cases hd : pydiv cs cm with
          | error e' => simp [hd] at hpre
          | ok ratio =>
            simp only [hd] at hpre ⊢
            cases hp : aggregateCards tab pre'
                (s + cs * card.weight) (m + cm * card.weight) with
            | error e' => simp [hp] at hpre
            | ok acc' => simp [ih hp]

theorem aggregateCards_cons_error {tab : ScoresTable} {cid : String}
    {card : ScoredReportCard} (hne : card.cases.isEmpty = false) {e : PyError}
    (hloc : locSum tab card.cases Col.score = .error e)
    (rest : List (String × ScoredReportCard)) (s m : ℚ) :
    aggregateCards tab ((cid, card) :: rest) s m = .error e := by
  simp [aggregateCards, hne, hloc, bind, Except.bind]

theorem aggregateCards_mem {tab : ScoresTable}
    {cards cards' : List (String × ScoredReportCard)} {s₀ m₀ s m : ℚ}
    (h : aggregateCards tab cards s₀ m₀ = .ok (cards', s, m))
    (hnd : (cards.map Prod.fst).Nodup) {cid : String} {card : ScoredReportCard}
    (hmem : (cid, card) ∈ cards) (hne : card.cases.isEmpty = false) :
    ∃ cs cm, locSum tab card.cases Col.score = .ok cs ∧
      locSum tab card.cases Col.max = .ok cm ∧ cm ≠ 0 ∧
      dictGet cid cards' = some { card with score := some (cs / cm) } := by
  induction cards generalizing s₀ m₀ cards' s m with
  | nil => cases hmem
  | cons x rest ih =>
    obtain ⟨cid₀, card₀⟩ := x
    simp only [List.map_cons, List.nodup_cons] at hnd
    rcases List.mem_cons.mp hmem with hh | hh
    · injection hh with h1 h2
      subst h1
      subst h2
      simp only [aggregateCards, hne, Bool.false_eq_true, if_false, bind, Except.bind] at h
      cases hs : locSum tab card.cases Col.score with
      | error e' => simp [hs] at h
      | ok cs =>
        simp only [hs] at h
        cases hm' : locSum tab card.cases Col.max with
        | error e' => simp [hm'] at h
        | ok cm =>
          simp only [hm'] at h
          cases hd : pydiv cs cm with
          | error e' => simp [hd] at h
          | ok ratio =>
            simp only [hd] at h
            cases hp : aggregateCards tab rest
                (s₀ + cs * card.weight) (m₀ + cm * card.weight) with
            | error e' => simp [hp] at h
            | ok acc' =>
              obtain ⟨l', s', m'⟩ := acc'
              simp only [hp, Except.ok.injEq, Prod.mk.injEq] at h
              obtain ⟨hfst, hs', hm'⟩ := h
              have hcm : cm ≠ 0 := by
                intro h0
                rw [h0] at hd
                simp [pydiv] at hd
              have hratio : ratio = cs / cm := by
                rw [pydiv, if_neg hcm] at hd
                injection hd with heq
                exact heq.symm
              subst hratio
              rw [← hfst]
              exact ⟨cs, cm, rfl, rfl, hcm, by simp [dictGet]⟩
    · have hcid₀ : cid₀ ≠ cid := by
        rintro rfl
        exact hnd.1 (List.mem_map.mpr ⟨(cid₀, card), hh, rfl⟩)
      by_cases hc : card₀.cases.isEmpty
      · simp only [aggregateCards, hc, if_pos] at h
        cases hp : aggregateCards tab rest s₀ m₀ with
        | error e' => simp [hp, Except.map] at h
        | ok acc' =>
          obtain ⟨l', s', m'⟩ := acc'
          simp only [hp, Except.map, Except.ok.injEq, Prod.mk.injEq] at h
          obtain ⟨hfst, hs', hm'⟩ := h
          obtain ⟨cs, cm, h1, h2, h3, h4⟩ := ih hp hnd.2 hh
          rw [← hfst]
          exact ⟨cs, cm, h1, h2, h3, by simpa [dictGet, hcid₀] using h4⟩
      · simp only [aggregateCards, hc, Bool.false_eq_true, if_false, bind, Except.bind] at h
        cases hs : locSum tab card₀.cases Col.score with
        | error e' => simp [hs] at h
        | ok cs₀ =>
          simp only [hs] at h
          cases hm' : locSum tab card₀.cases Col.max with
          | error e' => simp [hm'] at h
          | ok cm₀ =>
            simp only [hm'] at h
            cases hd : pydiv cs₀ cm₀ with
            | error e' => simp [hd] at h
            | ok ratio₀ =>
              simp only [hd] at h
              cases hp : aggregateCards tab rest
                  (s₀ + cs₀ * card₀.weight) (m₀ + cm₀ * card₀.weight) with
              | error e' => simp [hp] at h
              | ok acc' =>
                obtain ⟨l', s', m'⟩ := acc'
                simp only [hp, Except.ok.injEq, Prod.mk.injEq] at h
                obtain ⟨hfst, hs', hm'⟩ := h
                obtain ⟨cs, cm, h1, h2, h3, h4⟩ := ih hp hnd.2 hh
                rw [← hfst]
                exact ⟨cs, cm, h1, h2, h3, by simpa [dictGet, hcid₀] using h4⟩

theorem computeScore_ok_elim {result : MemoteResult} {config : ReportConfiguration}
    {result' : MemoteResult} {config' : ReportConfiguration}
    (h : computeScore result config = .ok (result', config')) :
    ∃ tests' tab cards' s m total,
      scoreTestsLoop config.weights result.tests
        (initTable (result.tests.map Prod.fst)) = .ok (tests', tab) ∧
      aggregateCards tab config.sections.scored.cards 0 0 = .ok (cards', s, m) ∧
      pydiv s m = .ok total ∧
      result' = { result with tests := tests' } ∧
      config' = { config with sections :=
        { config.sections with scored :=
          { config.sections.scored with cards := cards', score := some total } } } := by
  simp only [computeScore, bind, Except.bind] at h
  cases hloop : scoreTestsLoop config.weights result.tests
      (initTable (result.tests.map Prod.fst)) with
  | error e => simp [hloop] at h
  | ok out =>
    obtain ⟨tests', tab⟩ := out
    simp only [hloop] at h
    cases hagg : aggregateCards tab config.sections.scored.cards 0 0 with
    | error e => simp [hagg] at h
    | ok acc =>
      obtain ⟨cards', s, m⟩ := acc
      simp only [hagg] at h
      cases hdiv : pydiv s m with
      | error e => simp [hdiv] at h
      | ok total =>
        simp only [hdiv, Except.ok.injEq, Prod.mk.injEq] at h
        obtain ⟨h1, h2⟩ := h
        exact ⟨tests', tab, cards', s, m, total, rfl, hagg, hdiv, h1.symm, h2.symm⟩

theorem computeScore_error_of_loop {result : MemoteResult}
    {config : ReportConfiguration} {e : PyError}
    (h : scoreTestsLoop config.weights result.tests
      (initTable (result.tests.map Prod.fst)) = .error e) :
    computeScore result config = .error e := by
  simp [computeScore, h, bind, Except.bind]

theorem computeScore_error_of_agg {result : MemoteResult}
    {config : ReportConfiguration}
    {tests' : List (String × TestResult)} {tab : ScoresTable} {e : PyError}
    (hloop : scoreTestsLoop config.weights result.tests
      (initTable (result.tests.map Prod.fst)) = .ok (tests', tab))
    (hagg : aggregateCards tab config.sections.scored.cards 0 0 = .error e) :
    computeScore result config = .error e := by
  simp [computeScore, hloop, hagg, bind, Except.bind]

theorem paramFold_fst (l : List (String × ℚ)) (a : ℚ) (d : List (String × ℚ)) :
    (l.foldl paramStep (a, d)).1 = a + (l.map (fun kv => 1 - kv.2)).sum := by
  induction l generalizing a d with
  | nil => simp
  | cons kv rest ih =>
    simp [paramStep, ih, add_assoc]

theorem paramFold_lookup_notin {k : String} {l : List (String × ℚ)}
    (hk : k ∉ l.map Prod.fst) (a : ℚ) (d : List (String × ℚ)) :
    dictGet k (l.foldl paramStep (a, d)).2 = dictGet k d := by
  induction l generalizing a d with
  | nil => rfl
  | cons kv rest ih =>
    obtain ⟨k₀, m₀⟩ := kv
    simp only [List.map_cons, List.mem_cons, not_or] at hk
    simp only [List.foldl_cons, paramStep]
    rw [ih hk.2, dictGet_insert_other (Ne.symm hk.1)]

theorem paramFold_lookup {k : String} {mv : ℚ} {l : List (String × ℚ)}
    (hnd : (l.map Prod.fst).Nodup) (hmem : (k, mv) ∈ l) (a : ℚ)
    (d : List (String × ℚ)) :
    dictGet k (l.foldl paramStep (a, d)).2 = some (1 - mv) := by
  induction l generalizing a d with
  | nil => cases hmem
  | cons kv rest ih =>
    obtain ⟨k₀, m₀⟩ := kv
    simp only [List.map_cons, List.nodup_cons] at hnd
    rcases List.mem_cons.mp hmem with hh | hh
    · injection hh with h1 h2
      subst h1
      subst h2
      simp only [List.foldl_cons, paramStep]
      rw [paramFold_lookup_notin hnd.1, dictGet_insert_self]
    · simp only [List.foldl_cons, paramStep]
      exact ih hnd.2 hh _ _

/-! ## Claims -/

/-- C10: `compute_score` requires every scalar test case to carry a
non-`None` metric: a result containing a scalar test whose metric is absent
makes `compute_score` fail with a `TypeError` at `1.0 - result.metric`
instead of skipping or defaulting that test. -/
theorem computeScore_none_metric_type_error
    {result : MemoteResult} {config : ReportConfiguration} {t : String}
    {r : TestCaseResult} (hmem : (t, TestResult.scalar r) ∈ result.tests)
    (hm : r.metric = none) :
    computeScore result config = .error .typeError :=
  computeScore_error_of_loop (scoreTestsLoop_error_typeError config.weights hmem hm _)

/-- Witness for C10: a result whose only test is scalar with metric `None`. -/
theorem computeScore_none_metric_type_error_witness :
    computeScore
      { tests := [("t0", .scalar { title := "T", summary := "S", format_type := .raw })] }
      exConfig = .error .typeError :=
  computeScore_none_metric_type_error (List.mem_singleton.mpr rfl) rfl

/-- C9: when every card of the scored section has an empty case list
(including a scored section with no cards at all), `compute_score` fails
with a `ZeroDivisionError` at the final `score / maximum`, both accumulators
having stayed `0.0`; the division is unguarded. -/
theorem computeScore_all_empty_cards_zero_division
    {result : MemoteResult} {config : ReportConfiguration}
    {tests' : List (String × TestResult)} {tab : ScoresTable}
    (hloop : scoreTestsLoop config.weights result.tests
      (initTable (result.tests.map Prod.fst)) = .ok (tests', tab))
    (hempty : ∀ x ∈ config.sections.scored.cards, x.2.cases = []) :
    computeScore result config = .error .zeroDivisionError := by
  have hagg := aggregateCards_all_empty tab hempty 0 0
  simp [computeScore, hloop, hagg, bind, Except.bind, pydiv]

/-- Witness for C9: a scored section with no cards at all. -/
theorem computeScore_all_empty_cards_zero_division_witness :
    computeScore { tests := [] }
      { sections := { scored := {}, unscored := {} }, weights := [] } =
      .error .zeroDivisionError :=
  @computeScore_all_empty_cards_zero_division { tests := [] }
    { sections := { scored := {}, unscored := {} }, weights := [] } [] [] rfl
    (by intro x hx; cases hx)

/-- C2: for every scalar test with present metric `m`, `compute_score`
stores `1 - m` as the test's `score` field, and the per-test contribution
fed into the scores table (before weighting) is the same `1 - m`. -/
theorem computeScore_scalar_one_minus_metric
    {result : MemoteResult} {config : ReportConfiguration}
    {result' : MemoteResult} {config' : ReportConfiguration}
    {t : String} {r : TestCaseResult} {m : ℚ}
    (hnd : (result.tests.map Prod.fst).Nodup)
    (hmem : (t, TestResult.scalar r) ∈ result.tests)
    (hm : r.metric = some m) (hm0 : 0 ≤ m) (hm1 : m ≤ 1)
    (hok : computeScore result config = .ok (result', config')) :
    dictGet t result'.tests = some (.scalar { r with score := some (1 - m) }) ∧
    scoreOneTest (.scalar r) =
      .ok (.scalar { r with score := some (1 - m) }, 1 - m) := by
  obtain ⟨tests', tab, cards', s, mm, total, hloop, hagg, hdiv, hres, hcfg⟩ :=
    computeScore_ok_elim hok
  have hone : scoreOneTest (.scalar r) =
      .ok (.scalar { r with score := some (1 - m) }, 1 - m) := by
    simp [scoreOneTest, hm]
  obtain ⟨res', sc, hseq, hdict, htab⟩ := scoreTestsLoop_mem config.weights hnd hmem hloop
  rw [hone] at hseq
  injection hseq with hpair
  injection hpair with hr hsc
  subst hres
  refine ⟨?_, hone⟩
  simpa [← hr] using hdict

/-- Witness for C2: metric `0.0` yields stored score `1.0 - 0.0`. -/
theorem computeScore_scalar_one_minus_metric_witness :
    dictGet "t1" exResultScored.tests =
      some (.scalar { title := "T", summary := "S", format_type := .number,
                      metric := some 0, score := some (1 - 0) }) ∧
    scoreOneTest (.scalar
        { title := "T", summary := "S", format_type := .number, metric := some 0 }) =
      .ok (.scalar { title := "T", summary := "S", format_type := .number,
                     metric := some 0, score := some (1 - 0) }, 1 - 0) :=
  @computeScore_scalar_one_minus_metric exResult exConfig exResultScored exConfigScored
    "t1" { title := "T", summary := "S", format_type := .number, metric := some 0 } 0
    (by simp [exResult]) (List.mem_singleton.mpr rfl) rfl le_rfl zero_le_one
    (by norm_num [computeScore, exResult, exConfig, exResultScored, exConfigScored,
      scoreTestsLoop, scoreOneTest, initTable, dictGetD, dictGet, tableSetScore,
      tableScaleRow, tableMapRow, aggregateCards, locSum, tableLookup, colOf, pydiv,
      bind, Except.bind])

/-- C3: for every parametrized test, `compute_score` stores `1 - m_k` as the
per-key score for each metric key `k`, the test's aggregate contribution is
the arithmetic mean of the per-key scores, and an empty metric mapping
yields contribution `0`. -/
theorem computeScore_parametrized_mean
    {p : ParametrizedTestCaseResult} {k : String} {mv : ℚ}
    (hnd : (p.metric.map Prod.fst).Nodup) (hmem : (k, mv) ∈ p.metric) :
    dictGet k (scoreParam p).1.score = some (1 - mv) ∧
    (scoreParam p).2 = (p.metric.map (fun kv => 1 - kv.2)).sum / p.metric.length ∧
    scoreOneTest (.parametrized p) =
      .ok (.parametrized (scoreParam p).1, (scoreParam p).2) ∧
    ∀ q : ParametrizedTestCaseResult, q.metric = [] → (scoreParam q).2 = 0 := by
  have hlen : p.metric.length ≠ 0 := by
    intro h0
    rw [List.length_eq_zero] at h0
    rw [h0] at hmem
    cases hmem
  refine ⟨?_, ?_, ?_, ?_⟩
  · simp only [scoreParam]
    exact paramFold_lookup hnd hmem 0 p.score
  · simp only [scoreParam, if_neg hlen, paramFold_fst, zero_add]
  · simp [scoreOneTest]
  · intro q hq
    simp [scoreParam, hq]

/-- Witness for C3: metric `{"a": 0.0, "b": 1.0}` yields per-key scores
`{"a": 1.0, "b": 0.0}` and contribution `(1 + 0) / 2`. -/
theorem computeScore_parametrized_mean_witness :
    dictGet "a" (scoreParam exParam).1.score = some (1 - 0) ∧
    (scoreParam exParam).2 =
      ((exParam.metric.map (fun kv => 1 - kv.2)).sum / exParam.metric.length) ∧
    scoreOneTest (.parametrized exParam) =
      .ok (.parametrized (scoreParam exParam).1, (scoreParam exParam).2) ∧
    (∀ q : ParametrizedTestCaseResult, q.metric = [] → (scoreParam q).2 = 0) :=
  @computeScore_parametrized_mean exParam "a" 0
    (by simp [exParam]) (by simp [exParam])

/-- C1 (amended): for every non-empty card of the scored section,
`compute_score` sets the card's score to (sum of the `score` column over the
card's cases) / (sum of the `max` column over the card's cases), where a
test's `score` entry is its weighted score and its `max` entry is its
configured weight (`1.0 * weight`), not a constant `1.0`; cards with an
empty case list are skipped entirely, contributing nothing to the
accumulators of the section score. -/
theorem computeScore_card_ratio
    {result : MemoteResult} {config : ReportConfiguration}
    {result' : MemoteResult} {config' : ReportConfiguration}
    {cid : String} {card : ScoredReportCard}
    (hok : computeScore result config = .ok (result', config'))
    (hndc : (config.sections.scored.cards.map Prod.fst).Nodup)
    (hmem : (cid, card) ∈ config.sections.scored.cards)
    (hne : card.cases.isEmpty = false) :
    (∃ tests' tab cs cm,
      scoreTestsLoop config.weights result.tests
        (initTable (result.tests.map Prod.fst)) = .ok (tests', tab) ∧
      locSum tab card.cases Col.score = .ok cs ∧
      locSum tab card.cases Col.max = .ok cm ∧ cm ≠ 0 ∧
      dictGet cid config'.sections.scored.cards =
        some { card with score := some (cs / cm) } ∧
      (∀ t res, (result.tests.map Prod.fst).Nodup → (t, res) ∈ result.tests →
        ∃ res' sc, scoreOneTest res = .ok (res', sc) ∧
          tableLookup tab t =
            some (sc * dictGetD t config.weights 1, dictGetD t config.weights 1))) ∧
    (∀ (tab₂ : ScoresTable) (cid₂ : String) (card₂ : ScoredReportCard)
        (rest : List (String × ScoredReportCard)) (s₀ m₀ : ℚ), card₂.cases = [] →
      aggregateCards tab₂ ((cid₂, card₂) :: rest) s₀ m₀ =
        (aggregateCards tab₂ rest s₀ m₀).map (fun x => ((cid₂, card₂) :: x.1, x.2))) := by
  obtain ⟨tests', tab, cards', s, m, total, hloop, hagg, hdiv, hres, hcfg⟩ :=
    computeScore_ok_elim hok
  constructor
  · obtain ⟨cs, cm, h1, h2, h3, h4⟩ := aggregateCards_mem hagg hndc hmem hne
    refine ⟨tests', tab, cs, cm, hloop, h1, h2, h3, ?_, ?_⟩
    · rw [hcfg]
      exact h4
    · intro t res hndt hmemt
      obtain ⟨res', sc, hs, hd, ht⟩ := scoreTestsLoop_mem config.weights hndt hmemt hloop
      refine ⟨res', sc, hs, ?_⟩
      have hkey : t ∈ result.tests.map Prod.fst :=
        List.mem_map.mpr ⟨(t, res), hmemt, rfl⟩
      rw [tableLookup_initTable_of_mem hkey] at ht
      simpa using ht
  · intro tab₂ cid₂ card₂ rest s₀ m₀ hc
    exact aggregateCards_skip_empty tab₂ cid₂ hc rest s₀ m₀

/-- Witness for C1 (amended), at `exResult`/`exConfig`. -/
theorem computeScore_card_ratio_witness :
    (∃ tests' tab cs cm,
      scoreTestsLoop exConfig.weights exResult.tests
        (initTable (exResult.tests.map Prod.fst)) = .ok (tests', tab) ∧
      locSum tab ["t1"] Col.score = .ok cs ∧
      locSum tab ["t1"] Col.max = .ok cm ∧ cm ≠ 0 ∧
      dictGet "c1" exConfigScored.sections.scored.cards =
        some { title := "C", cases := ["t1"], weight := 1, score := some (cs / cm) } ∧
      (∀ t res, (exResult.tests.map Prod.fst).Nodup → (t, res) ∈ exResult.tests →
        ∃ res' sc, scoreOneTest res = .ok (res', sc) ∧
          tableLookup tab t =
            some (sc * dictGetD t exConfig.weights 1, dictGetD t exConfig.weights 1))) ∧
    (∀ (tab₂ : ScoresTable) (cid₂ : String) (card₂ : ScoredReportCard)
        (rest : List (String × ScoredReportCard)) (s₀ m₀ : ℚ), card₂.cases = [] →
      aggregateCards tab₂ ((cid₂, card₂) :: rest) s₀ m₀ =
        (aggregateCards tab₂ rest s₀ m₀).map (fun x => ((cid₂, card₂) :: x.1, x.2))) :=
  @computeScore_card_ratio exResult exConfig exResultScored exConfigScored
    "c1" { title := "C", cases := ["t1"] }
    (by norm_num [computeScore, exResult, exConfig, exResultScored, exConfigScored,
      scoreTestsLoop, scoreOneTest, initTable, dictGetD, dictGet, tableSetScore,
      tableScaleRow, tableMapRow, aggregateCards, locSum, tableLookup, colOf, pydiv,
      bind, Except.bind])
    (by simp [exConfig]) (by simp [exConfig]) rfl

/-- C1 counterexample: with `weights = {"t1": 2.0}` and metric `0.0`, the
weighted per-test score of `t1` is `2.0`, the card has exactly one case, so
the claim's formula (weighted scores divided by 1.0 per test) predicts a
card score of `2 / 1 = 2`; the code divides by the weighted `max` column and
stores `1.0` instead. -/
theorem computeScore_card_ratio_counterexample :
    computeScore exResult exConfigW2 = .ok (exResultScored, exConfigW2Scored) ∧
    dictGet "c1" exConfigW2Scored.sections.scored.cards =
      some { title := "C", cases := ["t1"], weight := 1, score := some 1 } ∧
    scoreTestsLoop exConfigW2.weights exResult.tests
      (initTable (exResult.tests.map Prod.fst)) =
      .ok (exResultScored.tests, [("t1", 2, 2)]) ∧
    locSum [("t1", ((2 : ℚ), (2 : ℚ)))] ["t1"] Col.score = .ok 2 ∧
    (["t1"] : List String).length = 1 ∧
    ¬ ((2 : ℚ) / 1 = 1) := by
  refine ⟨?_, ?_, ?_, ?_, rfl, by norm_num⟩
  · norm_num [computeScore, exResult, exConfigW2, exResultScored, exConfigW2Scored,
      scoreTestsLoop, scoreOneTest, initTable, dictGetD, dictGet, tableSetScore,
      tableScaleRow, tableMapRow, aggregateCards, locSum, tableLookup, colOf, pydiv,
      bind, Except.bind]
  · simp [exConfigW2Scored, dictGet]
  · norm_num [exResult, exConfigW2, exResultScored, scoreTestsLoop, scoreOneTest,
      initTable, dictGetD, dictGet, tableSetScore, tableScaleRow, tableMapRow,
      tableLookup, bind, Except.bind]
  · norm_num [locSum, tableLookup, colOf]

/-- C4: when a non-empty card of the scored section references a test
identifier absent from the result set (and the cards before it aggregate
cleanly), `compute_score` fails with a pandas `KeyError` naming the missing
identifier; the missing test is never silently skipped or scored as zero. -/
theorem computeScore_missing_test_keyerror
    {result : MemoteResult} {config : ReportConfiguration}
    {tests' : List (String × TestResult)} {tab : ScoresTable}
    {pre post : List (String × ScoredReportCard)} {cid : String}
    {card : ScoredReportCard}
    {acc : List (String × ScoredReportCard) × ℚ × ℚ} {t : String}
    (hloop : scoreTestsLoop config.weights result.tests
      (initTable (result.tests.map Prod.fst)) = .ok (tests', tab))
    (hcards : config.sections.scored.cards = pre ++ (cid, card) :: post)
    (hpre : aggregateCards tab pre 0 0 = .ok acc)
    (hne : card.cases.isEmpty = false)
    (ht : t ∈ card.cases) (habs : t ∉ result.tests.map Prod.fst) :
    ∃ missing, computeScore result config = .error (.keyError missing) ∧
      t ∈ missing := by
  have hpres := scoreTestsLoop_table_other config.weights habs hloop
  have htab : tableLookup tab t = none := by
    have : tableLookup (tests', tab).2 t = none := by
      rw [hpres]
      exact tableLookup_initTable_of_not_mem habs
    simpa using this
  obtain ⟨hloc, hmemf⟩ := locSum_error Col.score ht htab
  refine ⟨_, ?_, hmemf⟩
  apply computeScore_error_of_agg hloop
  rw [hcards]
  exact aggregateCards_error_after hpre
    (fun s' m' => aggregateCards_cons_error hne hloc post s' m')

/-- Witness for C4: the card references `"missing"`, which is absent from
the (empty) result, and the error names it. -/
theorem computeScore_missing_test_keyerror_witness :
    ∃ missing, computeScore exResultEmpty exConfigMissing =
      .error (.keyError missing) ∧ "missing" ∈ missing :=
  @computeScore_missing_test_keyerror exResultEmpty exConfigMissing [] [] [] []
    "c1" { title := "C", cases := ["missing"] } ([], 0, 0) "missing"
    rfl rfl rfl rfl (List.mem_singleton.mpr rfl) (by simp [exResultEmpty])

/-- C5 (code bug): `merge` never returns a combined configuration.  The body
`type(self).parse_obj(self.dict().update(other.dict()))` passes the return
value of `dict.update` — always `None` — to `parse_obj`, which rejects it
with a `ValidationError`, for every pair of configurations. -/
theorem merge_always_validation_error (self other : ReportConfiguration) :
    merge self other = .error .validationError := rfl

/-- C8: whenever the serializer rejects a value (in either parameter set),
`jsonify` logs exactly one record at critical severity and re-raises the
same error; and a NaN float is rejected under both the pretty and the
compact parameter set, `allow_nan` being `False` in both. -/
theorem jsonify_reraises_after_critical_log
    {v : PyValue} {pretty : Bool} {e : PyError}
    (herr : dumps (if pretty then prettyParams else compactParams) v = .error e) :
    jsonify v pretty = ([(.critical, jsonifyCriticalMsg)], .error e) ∧
    ∀ b : Bool, dumps (if b then prettyParams else compactParams) PyValue.pynan =
      .error (.valueError "Out of range float values are not JSON compliant") := by
  constructor
  · simp [jsonify, herr]
  · intro b
    cases b <;> rfl

/-- Witness for C8: a result payload containing a NaN float. -/
theorem jsonify_reraises_after_critical_log_witness :
    jsonify (.pylist [.pynan]) true = ([(.critical, jsonifyCriticalMsg)],
      .error (.valueError "Out of range float values are not JSON compliant")) ∧
    ∀ b : Bool, dumps (if b then prettyParams else compactParams) PyValue.pynan =
      .error (.valueError "Out of range float values are not JSON compliant") :=
  @jsonify_reraises_after_critical_log (.pylist [.pynan]) true
    (.valueError "Out of range float values are not JSON compliant") rfl

/-! ## Lemmas for `determine_miscellaneous_tests` -/

theorem mem_foldr_cases_scored (l : List (String × ScoredReportCard)) (x : String) :
    x ∈ l.foldr (fun c acc => c.2.cases ++ acc) [] ↔ ∃ e ∈ l, x ∈ e.2.cases := by
  induction l with
  | nil => simp
  | cons e rest ih => simp [ih]

theorem mem_foldr_cases_unscored (l : List (String × ReportCard)) (x : String) :
    x ∈ l.foldr (fun c acc => c.2.cases ++ acc) [] ↔ ∃ e ∈ l, x ∈ e.2.cases := by
  induction l with
  | nil => simp
  | cons e rest ih => simp [ih]

theorem strMem_configured_iff (config : ReportConfiguration) (x : String) :
    strMem x (getConfiguredTests config) = true ↔
      (∃ e ∈ config.sections.scored.cards, x ∈ e.2.cases) ∨
      (∃ e ∈ config.sections.unscored.cards, x ∈ e.2.cases) := by
  rw [strMem_iff, getConfiguredTests, List.mem_append,
    mem_foldr_cases_scored, mem_foldr_cases_unscored]

theorem mem_dictInsert_self {α : Type} (k : String) (v : α)
    (d : List (String × α)) : (k, v) ∈ dictInsert k v d := by
  induction d with
  | nil => simp [dictInsert]
  | cons e rest ih =>
    obtain ⟨k₀, v₀⟩ := e
    by_cases h : k₀ = k <;> simp [dictInsert, h, ih]

theorem dictGet_append_new {α : Type} {k : String} {d : List (String × α)}
    (h : dictGet k d = none) (v : α) : dictGet k (d ++ [(k, v)]) = some v := by
  induction d with
  | nil => simp [dictGet]
  | cons e rest ih =>
    obtain ⟨k₀, v₀⟩ := e
    by_cases hk : k₀ = k
    · rw [dictGet, if_pos hk] at h
      cases h
    · rw [dictGet, if_neg hk] at h
      simpa [dictGet, hk] using ih h

theorem mem_insert_extended {cards : List (String × ReportCard)}
    {misc0 : ReportCard} (hget : dictGet "misc" cards = some misc0)
    (u : List String) {e : String × ReportCard} (he : e ∈ cards) {x : String}
    (hx : x ∈ e.2.cases) :
    ∃ e' ∈ dictInsert "misc" { misc0 with cases := misc0.cases ++ u } cards,
      x ∈ e'.2.cases := by
  induction cards with
  | nil => cases he
  | cons c rest ih =>
    obtain ⟨k₀, c₀⟩ := c
    by_cases hk : k₀ = "misc"
    · subst hk
      rw [dictGet, if_pos rfl] at hget
      injection hget with hget
      subst hget
      simp only [dictInsert, if_pos rfl]
      rcases List.mem_cons.mp he with hh | hh
      · subst hh
        exact ⟨("misc", { c₀ with cases := c₀.cases ++ u }),
          List.mem_cons_self _ _, List.mem_append_left _ hx⟩
      · exact ⟨e, List.mem_cons_of_mem _ hh, hx⟩
    · rw [dictGet, if_neg hk] at hget
      simp only [dictInsert, if_neg hk]
      rcases List.mem_cons.mp he with hh | hh
      · subst hh
        exact ⟨(k₀, c₀), List.mem_cons_self _ _, hx⟩
      · obtain ⟨e', he', hx'⟩ := ih hget hh
        exact ⟨e', List.mem_cons_of_mem _ he', hx'⟩

theorem configured_mono (result : MemoteResult) (config : ReportConfiguration)
    {x : String} (h : strMem x (getConfiguredTests config) = true) :
    strMem x (getConfiguredTests (determineMisc result config)) = true := by
  cases hu : (unconfiguredTests result config).isEmpty with
  | true => simpa [determineMisc, hu] using h
  | false =>
    rw [strMem_configured_iff] at h
    rw [strMem_configured_iff]
    simp only [determineMisc, hu, Bool.false_eq_true, if_false]
    rcases h with h | h
    · exact Or.inl h
    · obtain ⟨e, he, hx⟩ := h
      cases hg : dictGet "misc" config.sections.unscored.cards with
      | some misc0 =>
        obtain ⟨e', he', hx'⟩ := mem_insert_extended hg
          (unconfiguredTests result config) he hx
        exact Or.inr ⟨e', by simpa [hg] using he', hx'⟩
      | none =>
        refine Or.inr ⟨e, ?_, hx⟩
        simp only [hg]
        exact List.mem_append_left _ he

theorem unconfigured_in_misc (result : MemoteResult)
    (config : ReportConfiguration)
    (hu : (unconfiguredTests result config).isEmpty = false) {x : String}
    (hx : x ∈ unconfiguredTests result config) :
    strMem x (getConfiguredTests (determineMisc result config)) = true := by
  rw [strMem_configured_iff]
  simp only [determineMisc, hu, Bool.false_eq_true, if_false]
  cases hg : dictGet "misc" config.sections.unscored.cards with
  | some misc0 =>
    refine Or.inr ⟨("misc",
      { misc0 with cases := misc0.cases ++ unconfiguredTests result config }), ?_, ?_⟩
    · simpa [hg] using mem_dictInsert_self "misc" _ _
    · exact List.mem_append_right _ hx
  | none =>
    refine Or.inr ⟨("misc",
      { title := "Misc. Tests", cases := unconfiguredTests result config }), ?_, hx⟩
    simp [hg]

theorem unconfigured_after (result : MemoteResult)
    (config : ReportConfiguration) :
    unconfiguredTests result (determineMisc result config) = [] := by
  rw [unconfiguredTests, List.filter_eq_nil_iff]
  intro t ht
  simp only [Bool.not_eq_true', Bool.not_eq_false]
  cases hs : strMem t (getConfiguredTests config) with
  | true => exact configured_mono result config hs
  | false =>
    have htu : t ∈ unconfiguredTests result config := by
      rw [unconfiguredTests, List.mem_filter]
      exact ⟨ht, by simp [hs]⟩
    have hu : (unconfiguredTests result config).isEmpty = false := by
      cases h' : unconfiguredTests result config with
      | nil => rw [h'] at htu; cases htu
      | cons a l => simp
    exact unconfigured_in_misc result config hu htu

theorem determineMisc_of_empty {result : MemoteResult}
    {config : ReportConfiguration}
    (h : unconfiguredTests result config = []) :
    determineMisc result config = config := by
  simp [determineMisc, h]

/-- C6 (amended): `determine_miscellaneous_tests` is idempotent — a second
run leaves the configuration, and in particular the "Misc. Tests" card,
unchanged and duplicates nothing — and after one run the misc card's case
list is its pre-existing case list (empty when the card did not exist)
extended by exactly the identifiers present in the result but in no
configured card. -/
theorem determineMisc_idempotent_extends (result : MemoteResult)
    (config : ReportConfiguration) :
    determineMisc result (determineMisc result config) =
      determineMisc result config ∧
    ((unconfiguredTests result config).isEmpty = false →
      (dictGet "misc"
          (determineMisc result config).sections.unscored.cards).map
        ReportCard.cases =
        some (((dictGet "misc" config.sections.unscored.cards).map
          ReportCard.cases).getD [] ++ unconfiguredTests result config)) := by
  constructor
  · exact determineMisc_of_empty (unconfigured_after result config)
  · intro hu
    simp only [determineMisc, hu, Bool.false_eq_true, if_false]
    cases hg : dictGet "misc" config.sections.unscored.cards with
    | some misc0 => simp [hg, dictGet_insert_self]
    | none => simp [hg, dictGet_append_new hg]

/-- Witness for C6 (amended), at a configuration whose unscored section
already holds a misc card with case `"x"`. -/
theorem determineMisc_idempotent_extends_witness :
    determineMisc exResult (determineMisc exResult exMiscConfig) =
      determineMisc exResult exMiscConfig ∧
    ((unconfiguredTests exResult exMiscConfig).isEmpty = false →
      (dictGet "misc"
          (determineMisc exResult exMiscConfig).sections.unscored.cards).map
        ReportCard.cases =
        some (((dictGet "misc" exMiscConfig.sections.unscored.cards).map
          ReportCard.cases).getD [] ++ unconfiguredTests exResult exMiscConfig)) :=
  determineMisc_idempotent_extends exResult exMiscConfig

/-- C6 counterexample: with a pre-existing misc card holding `"x"` (absent
from the result) and a result with the unconfigured test `"t1"`, one run
leaves the misc card with cases `["x", "t1"]`, not exactly the unconfigured
set `["t1"]`. -/
theorem determineMisc_not_exactly_unconfigured :
    (dictGet "misc"
        (determineMisc exResult exMiscConfig).sections.unscored.cards).map
      ReportCard.cases = some ["x", "t1"] ∧
    unconfiguredTests exResult exMiscConfig = ["t1"] ∧
    "x" ∈ (["x", "t1"] : List String) ∧ "x" ∉ (["t1"] : List String) := by
  refine ⟨?_, ?_, by decide, by decide⟩
  · simp [determineMisc, unconfiguredTests, exResult, exMiscConfig,
      getConfiguredTests, strMem, dictGet, dictInsert]
  · simp [unconfiguredTests, exResult, exMiscConfig, getConfiguredTests, strMem]

/-- C7 (code bug): over two models that share the scalar test `t1`,
`format_and_score_diff_data` never returns the assembled structure: during
the very first model's iteration, `for section in
self.result["score"]["sections"]` subscripts the `MemoteResult` pydantic
model — which is not subscriptable and has no `score` field — raising a
`TypeError` before the loop can finish.  The tests-assembly part alone, run
over both models as the claim intends, does produce `tests["t1"].diff` as a
flat list of exactly two entries, one per model in iteration order, each
carrying that model's identifier and values. -/
theorem formatAndScoreDiffData_type_error :
    formatAndScoreDiffData [("m1", exResult), ("m2", exResultB)] exConfig =
      .error .typeError ∧
    mergeAllModelTests [("m1", exResult), ("m2", exResultB)] [] =
      .ok [("t1", exDiffT1)] := by
  constructor
  · norm_num [formatAndScoreDiffData, diffLoop, diffStep, processModelTests, processTest,
      mkScalarDiffEntry, dictGet, computeScore, scoreTestsLoop, scoreOneTest, initTable,
      dictGetD, tableSetScore, tableScaleRow, tableMapRow, aggregateCards, locSum,
      tableLookup, colOf, pydiv, resultScoreSections, exResult, exResultB, exConfig,
      bind, Except.bind]
  · rfl
